import Mathlib

/-!
# Shallow embedding of the transfer-queue task executor core

This file embeds, in Lean 4, the control flow of the transfer-queue task
executor (`pushActivity`, `pushWorkflowTask`, `deleteExecution`,
`isCloseExecutionTaskPending`) and of the worker-deployment version-sync
fan-out activities (`SyncUnversionedRamp`,
`SyncDeploymentVersionUserDataFromWorkerDeployment`), and proves the
specification's claims about them.

External collaborators (the matching client, the mutable-state store, the
deletion primitive) are modelled as environments supplying each call's
outcome; observable effects (lock releases, mutable-state updates, calls to
the deletion primitive) are tracked explicitly so that frame and
exactly-once properties can be stated.
-/

deriving instance DecidableEq for Except

namespace Temporal

/-- Error values observed by this core.  `notFound` models
`*serviceerror.NotFound`; `dependencyTaskNotCompleted` models
`consts.ErrDependencyTaskNotCompleted`; `versionMismatch` models the
distinct version-conflict error produced by the version consistency check;
`serviceFailure` models every other (opaque) error value. -/
inductive Err where
  | notFound
  | dependencyTaskNotCompleted
  | versionMismatch
  | serviceFailure (code : Nat)
deriving DecidableEq, Repr

/-- Per-shard, per-category queue state: the lowest unacknowledged task id
(`ackLevel`) and the set of task ids at/above the ack level that completed
out of order (`ackedExceptions`). -/
structure QueueState where
  ackLevel : Int
  ackedExceptions : List Int
deriving DecidableEq, Repr

/-- Modelled from the spec: `queues.IsTaskAcked` is not under `src/`.
Per the spec (§3 QueueState invariant, P3): a task is acked iff its id is
strictly below the ack level, or explicitly present in the
acked-exceptions set. -/
def IsTaskAcked (taskId : Int) (qs : QueueState) : Bool :=
  decide (taskId < qs.ackLevel) || qs.ackedExceptions.contains taskId

/-- The slice of a workflow's mutable state read by `deleteExecution`:
the transfer-task id of its close-notification task
(`GetExecutionInfo().CloseTransferTaskId`) and the outcome of
`GetCloseVersion()` (which is fallible in the source). -/
structure MutableState where
  closeTransferTaskId : Int
  getCloseVersion : Except Err Int
deriving DecidableEq, Repr

/-- Modelled from the spec: `common.EmptyVersion` is not under `src/`.
The sentinel "no version" value carried by tasks that were created from
explicit user API calls or belong to a local (non-replicated) namespace. -/
def EmptyVersion : Int := -24

/-- Modelled from the spec: `CheckTaskVersion` is not under `src/`.
Per the spec (§4.2, P2): the sentinel always passes; otherwise the task's
version must equal the authoritative (close) version exactly, and any
mismatch fails with the dedicated version-conflict error. -/
def CheckTaskVersion (closeVersion taskVersion : Int) : Option Err :=
  if taskVersion = EmptyVersion then none
  else if taskVersion = closeVersion then none
  else some .versionMismatch

/-- `isCloseExecutionTaskPending` from the source: with
`CloseTransferTaskId = 0` (workflow closed before the field was added) the
close task is not pending; with no transfer-category queue state the task
is conservatively pending; otherwise it is pending iff a synthesized close
task with the recorded id is not acked. `transferQueueState` is the result
of `shardContext.GetQueueState(tasks.CategoryTransfer)` (`none` = not
found). -/
def isCloseExecutionTaskPending (ms : MutableState)
    (transferQueueState : Option QueueState) : Bool :=
  if ms.closeTransferTaskId = 0 then
    false
  else
    match transferQueueState with
    | none => true
    | some qs => !(IsTaskAcked ms.closeTransferTaskId qs)

/-- Environment of `deleteExecution`: the outcome of each external call it
makes, in program order.  `acquireLock` is `cache.GetOrCreateChasmEntity`,
`loadMutableState` is `loadMutableStateForTransferTask`, `queueState` is
`shardContext.GetQueueState(tasks.CategoryTransfer)`, and
`deletePrimitive` is the error returned by
`workflowDeleteManager.DeleteWorkflowExecution` (modelled from the spec:
the delete manager is not under `src/`; it is the external deletion
primitive and only its returned error is observable here). -/
structure DeleteEnv where
  acquireLock : Except Err Unit
  loadMutableState : Except Err MutableState
  queueState : Option QueueState
  deletePrimitive : Option Err
deriving DecidableEq, Repr

/-- Observable effects of one `deleteExecution` run: the arguments passed
to the lock's release callback (in order), and how many times the deletion
primitive was invoked. -/
structure DeleteEffects where
  releases : List (Option Err)
  deleteCalls : Nat
deriving DecidableEq, Repr

/-- The body of `deleteExecution` after the lock has been acquired,
returning the error result (`none` = nil) and the number of calls to the
deletion primitive.  Mirrors the source: load mutable state; if
`ensureNoPendingCloseTask` and the close task is pending, fail with
`ErrDependencyTaskNotCompleted`; compute the task version (sentinel when
the task does not implement `HasVersion`); if non-sentinel, resolve the
close version and check it; finally invoke
`workflowDeleteManager.DeleteWorkflowExecution`. -/
def deleteExecutionBody (env : DeleteEnv) (taskVersion : Option Int)
    (ensureNoPendingCloseTask : Bool) : Option Err × Nat :=
  match env.loadMutableState with
  | .error e => (some e, 0)
  | .ok ms =>
    if ensureNoPendingCloseTask && isCloseExecutionTaskPending ms env.queueState then
      (some .dependencyTaskNotCompleted, 0)
    else
      let tv := taskVersion.getD EmptyVersion
      if tv ≠ EmptyVersion then
        match ms.getCloseVersion with
        | .error e => (some e, 0)
        | .ok closeVersion =>
          match CheckTaskVersion closeVersion tv with
          | some e => (some e, 0)
          | none => (env.deletePrimitive, 1)
      else
        (env.deletePrimitive, 1)

/-- `deleteExecution` from the source: acquire the workflow lock at low
priority (an acquisition failure is returned before any release callback
exists); on success, run the body with `defer func() { release(retError) }()`
in force, so the release callback is invoked exactly once with the
function's returned error.  `taskVersion = none` models a task that does
not implement `tasks.HasVersion`. -/
def deleteExecution (env : DeleteEnv) (taskVersion : Option Int)
    (ensureNoPendingCloseTask : Bool) : Option Err × DeleteEffects :=
  match env.acquireLock with
  | .error e => (some e, { releases := [], deleteCalls := 0 })
  | .ok _ =>
    let r := deleteExecutionBody env taskVersion ensureNoPendingCloseTask
    (r.1, { releases := [r.1], deleteCalls := r.2 })

/-- The task version directive carried by a dispatched task.
`useAssignmentRules = some _` models a set `use_assignment_rules` oneof
field; `none` models its absence (a pinned/no-op directive). -/
structure TaskVersionDirective where
  useAssignmentRules : Option Unit
deriving DecidableEq, Repr

/-- `directive.GetUseAssignmentRules()`: a nil directive (or one with the
field unset) yields nil. -/
def getUseAssignmentRules : Option TaskVersionDirective → Option Unit
  | none => none
  | some d => d.useAssignmentRules

/-- The fields of a queued activity task used by `pushActivity`. -/
structure ActivityTaskInfo where
  scheduledEventId : Int
  taskId : Int
deriving DecidableEq, Repr

/-- The fields of a queued workflow task used by `pushWorkflowTask`. -/
structure WorkflowTaskInfo where
  scheduledEventId : Int
  taskId : Int
deriving DecidableEq, Repr

/-- The matching-service response to `AddActivityTask`/`AddWorkflowTask`:
the worker-assigned build id. -/
structure AddTaskResponse where
  assignedBuildId : String
deriving DecidableEq, Repr

/-- The `AddActivityTaskRequest` fields this embedding tracks.  In the
source the schedule-to-start timeout is always sent
(`durationpb.New(activityScheduleToStartTimeout)`), hence a plain value. -/
structure AddActivityTaskRequest where
  scheduledEventId : Int
  scheduleToStartTimeout : Int
  taskId : Int
deriving DecidableEq, Repr

/-- The `AddWorkflowTaskRequest` fields this embedding tracks.  The
schedule-to-start timeout is a nilable pointer (`*durationpb.Duration`):
`none` models the nil pointer. -/
structure AddWorkflowTaskRequest where
  scheduledEventId : Int
  scheduleToStartTimeout : Option Int
  taskId : Int
deriving DecidableEq, Repr

/-- Environment of one dispatch call: the matching client's result for the
`AddActivityTask`/`AddWorkflowTask` RPC, and the outcome of the
mutable-state build-id update should it be attempted. -/
structure MatchingEnv where
  addTaskResult : Except Err AddTaskResponse
  updateBuildIdResult : Option Err
deriving DecidableEq, Repr

/-- Observable outcome of one dispatch: the error returned to the caller
(`none` = nil), the build-id values written to mutable state (in order),
and whether a not-found anomaly was logged. -/
structure PushOutcome where
  error : Option Err
  msUpdates : List String
  loggedNotFound : Bool
deriving DecidableEq, Repr

/-- Modelled from the spec: `updateIndependentActivityBuildId` is not
under `src/`.  Per the spec (§4.1): it issues exactly one mutable-state
update recording the worker-assigned build id as the activity's
independent build-id assignment; its outcome comes from the store. -/
def updateIndependentActivityBuildId (assignedBuildId : String)
    (storeOutcome : Option Err) : Option Err × List String :=
  (storeOutcome, [assignedBuildId])

/-- Modelled from the spec: `initializeWorkflowAssignedBuildId` is not
under `src/`.  Per the spec (§4.1): it issues exactly one mutable-state
update initializing the workflow's overall assigned build id; its outcome
comes from the store. -/
def initializeWorkflowAssignedBuildId (assignedBuildId : String)
    (storeOutcome : Option Err) : Option Err × List String :=
  (storeOutcome, [assignedBuildId])

/-- `pushActivity` from the source: send `AddActivityTaskRequest`; if the
matching client returned `*serviceerror.NotFound`, log the anomaly; if it
returned any error, return that error; on success, skip the mutable-state
update when `directive.GetUseAssignmentRules()` is nil, otherwise run
`updateIndependentActivityBuildId` with the response's assigned build id
and return its outcome. -/
def pushActivity (env : MatchingEnv) (task : ActivityTaskInfo)
    (activityScheduleToStartTimeout : Int)
    (directive : Option TaskVersionDirective) :
    AddActivityTaskRequest × PushOutcome :=
  let req : AddActivityTaskRequest :=
    { scheduledEventId := task.scheduledEventId
      scheduleToStartTimeout := activityScheduleToStartTimeout
      taskId := task.taskId }
  match env.addTaskResult with
  | .error e =>
    (req, { error := some e, msUpdates := [], loggedNotFound := e = .notFound })
  | .ok resp =>
    match getUseAssignmentRules directive with
    | none => (req, { error := none, msUpdates := [], loggedNotFound := false })
    | some _ =>
      let u := updateIndependentActivityBuildId resp.assignedBuildId env.updateBuildIdResult
      (req, { error := u.1, msUpdates := u.2, loggedNotFound := false })

/-- `pushWorkflowTask` from the source: compute the nilable
schedule-to-start timeout (`nil` unless the given duration is strictly
positive), send `AddWorkflowTaskRequest`; not-found logging, error return
and the build-id update mirror `pushActivity`, with
`initializeWorkflowAssignedBuildId` as the update. -/
def pushWorkflowTask (env : MatchingEnv) (task : WorkflowTaskInfo)
    (workflowTaskScheduleToStartTimeout : Int)
    (directive : Option TaskVersionDirective) :
    AddWorkflowTaskRequest × PushOutcome :=
  let sst : Option Int :=
    if workflowTaskScheduleToStartTimeout > 0 then
      some workflowTaskScheduleToStartTimeout
    else
      none
  let req : AddWorkflowTaskRequest :=
    { scheduledEventId := task.scheduledEventId
      scheduleToStartTimeout := sst
      taskId := task.taskId }
  match env.addTaskResult with
  | .error e =>
    (req, { error := some e, msUpdates := [], loggedNotFound := e = .notFound })
  | .ok resp =>
    match getUseAssignmentRules directive with
    | none => (req, { error := none, msUpdates := [], loggedNotFound := false })
    | some _ =>
      let u := initializeWorkflowAssignedBuildId resp.assignedBuildId env.updateBuildIdResult
      (req, { error := u.1, msUpdates := u.2, loggedNotFound := false })

/-- One completed per-task-queue sync call, as observed at the
aggregation point: the task-queue name and either the user-data version
reported by matching (`SyncDeploymentUserDataResponse.Version`) or the
call's error. -/
abbrev SyncArrival := String × Except Err Int

/-- `cmp.Or` on Go error values: the first non-nil argument (`nil` when
both are nil). -/
def cmpOr (a b : Option Err) : Option Err :=
  match a with
  | some e => some e
  | none => b

/-- The error sent to the `errs` channel by one sync goroutine. -/
def syncArrivalErr (r : SyncArrival) : Option Err :=
  match r.2 with
  | .ok _ => none
  | .error e => some e

/-- `for range { err = cmp.Or(err, <-errs) }` from the source: fold the
per-goroutine errors, in channel-arrival order, keeping the first non-nil
one. -/
def syncFanoutError (arrivals : List SyncArrival) : Option Err :=
  arrivals.foldl (fun acc r => cmpOr acc (syncArrivalErr r)) none

/-- `maxVersionByTQName[name] = max(maxVersionByTQName[name], v)` from the
source: the Go map is modelled by its lookup function, with the map's
missing-key zero value as default. -/
def recordMaxVersion (m : String → Int) (name : String) (v : Int) :
    String → Int :=
  fun k => if k = name then max (m name) v else m k

/-- The mutex-protected map update performed by one sync goroutine:
successful calls record their reported version under the queue's name;
failed calls leave the map untouched. -/
def applySyncArrival (m : String → Int) (r : SyncArrival) : String → Int :=
  match r.2 with
  | .ok v => recordMaxVersion m r.1 v
  | .error _ => m

/-- The per-queue max-version map accumulated over all goroutines, in
arrival order, starting from the empty map (all zeroes). -/
def syncFanoutVersions (arrivals : List SyncArrival) : String → Int :=
  arrivals.foldl applySyncArrival (fun _ => 0)

/-- The aggregation shared by `SyncUnversionedRamp` and
`SyncDeploymentVersionUserDataFromWorkerDeployment`: launch one goroutine
per task queue, collect each goroutine's `(name, version-or-error)`
outcome, return the first error if any goroutine failed, and otherwise the
`TaskQueueMaxVersions` map.  `arrivals` is the nondeterministic completion
order of the goroutines; the theorems quantify over every permutation of
the per-queue results. -/
def syncDeploymentUserDataFanout (arrivals : List SyncArrival) :
    Except Err (String → Int) :=
  match syncFanoutError arrivals with
  | some e => .error e
  | none => .ok (syncFanoutVersions arrivals)

/-- Whether one per-task-queue sync call succeeded. -/
def syncCallOk (r : SyncArrival) : Bool :=
  match r.2 with
  | .ok _ => true
  | .error _ => false

/-- The versions reported for task-queue `name` by the successful calls
among `results`. -/
def reportedVersions (name : String) (results : List SyncArrival) : List Int :=
  results.filterMap fun r =>
    match r with
    | (n, .ok v) => if n = name then some v else none
    | (_, .error _) => none

/-! ## Dispatcher theorems -/

/-- The request sent by `pushWorkflowTask` is the same on every branch:
the nilable schedule-to-start timeout is set iff the given duration is
strictly positive. -/
theorem pushWorkflowTask_request (env : MatchingEnv) (task : WorkflowTaskInfo)
    (timeout : Int) (directive : Option TaskVersionDirective) :
    (pushWorkflowTask env task timeout directive).1 =
      { scheduledEventId := task.scheduledEventId
        scheduleToStartTimeout := if timeout > 0 then some timeout else none
        taskId := task.taskId } := by
  unfold pushWorkflowTask
  cases env.addTaskResult with
  | error e => rfl
  | ok resp => cases getUseAssignmentRules directive <;> rfl

/-- C7: for every workflow-task dispatch, the `AddWorkflowTask` request's
`ScheduleToStartTimeout` field is nil exactly when the caller-provided
timeout is not strictly positive, and carries the given duration
otherwise. -/
theorem pushWorkflowTask_zero_timeout_not_sent (env : MatchingEnv)
    (task : WorkflowTaskInfo) (timeout : Int)
    (directive : Option TaskVersionDirective) :
    ((pushWorkflowTask env task timeout directive).1.scheduleToStartTimeout = none
        ↔ ¬ 0 < timeout) ∧
    (0 < timeout →
      (pushWorkflowTask env task timeout directive).1.scheduleToStartTimeout
        = some timeout) := by
  rw [pushWorkflowTask_request]
  by_cases h : 0 < timeout <;> simp [h]

/-- C10: if the matching dispatch call returns any error,
`pushActivity`/`pushWorkflowTask` return that error and issue no
mutable-state update, even when the directive requests dynamic
assignment. -/
theorem push_dispatch_error_no_ms_update (env : MatchingEnv)
    (atask : ActivityTaskInfo) (wtask : WorkflowTaskInfo) (ato wto : Int)
    (directive : Option TaskVersionDirective) (e : Err)
    (herr : env.addTaskResult = .error e) :
    (pushActivity env atask ato directive).2.error = some e ∧
    (pushActivity env atask ato directive).2.msUpdates = [] ∧
    (pushWorkflowTask env wtask wto directive).2.error = some e ∧
    (pushWorkflowTask env wtask wto directive).2.msUpdates = [] := by
  simp [pushActivity, pushWorkflowTask, herr]

/-- Witness for C10 at a concrete input: a failed dispatch (with a
dynamic-assignment directive) returns the failure and leaves mutable
state untouched. -/
theorem push_dispatch_error_no_ms_update_w :
    (pushActivity ⟨.error (.serviceFailure 7), none⟩ ⟨1, 42⟩ 10
        (some ⟨some ()⟩)).2.error = some (Err.serviceFailure 7) ∧
    (pushActivity ⟨.error (.serviceFailure 7), none⟩ ⟨1, 42⟩ 10
        (some ⟨some ()⟩)).2.msUpdates = [] ∧
    (pushWorkflowTask ⟨.error (.serviceFailure 7), none⟩ ⟨1, 42⟩ 0
        (some ⟨some ()⟩)).2.error = some (Err.serviceFailure 7) ∧
    (pushWorkflowTask ⟨.error (.serviceFailure 7), none⟩ ⟨1, 42⟩ 0
        (some ⟨some ()⟩)).2.msUpdates = [] :=
  push_dispatch_error_no_ms_update ⟨.error (.serviceFailure 7), none⟩
    ⟨1, 42⟩ ⟨1, 42⟩ 10 0 (some ⟨some ()⟩) (Err.serviceFailure 7) rfl

/-- C2 counterexample: with matching returning not-found for the
`AddActivityTask` call, `pushActivity` does NOT return success — it
returns the not-found error itself. -/
theorem pushActivity_notFound_still_errors_cex :
    (pushActivity ⟨.error .notFound, none⟩ ⟨1, 42⟩ 10 none).2.error
        = some Err.notFound ∧
    ¬ (pushActivity ⟨.error .notFound, none⟩ ⟨1, 42⟩ 10 none).2.error = none := by
  decide

/-- C2 amended: every matching error — not-found included — is returned
by the dispatcher as a dispatch failure; a not-found error is additionally
logged as an anomaly (its swallowing happens in downstream task-level
error classification, not in `pushActivity`/`pushWorkflowTask`). -/
theorem push_notFound_logged_and_returned (env : MatchingEnv)
    (atask : ActivityTaskInfo) (wtask : WorkflowTaskInfo) (ato wto : Int)
    (directive : Option TaskVersionDirective) (e : Err)
    (herr : env.addTaskResult = .error e) :
    (pushActivity env atask ato directive).2.error = some e ∧
    ((pushActivity env atask ato directive).2.loggedNotFound = true ↔
      e = Err.notFound) ∧
    (pushWorkflowTask env wtask wto directive).2.error = some e ∧
    ((pushWorkflowTask env wtask wto directive).2.loggedNotFound = true ↔
      e = Err.notFound) := by
  simp [pushActivity, pushWorkflowTask, herr]

/-- Witness for the amended C2 at a concrete input: a not-found dispatch
error is logged and returned. -/
theorem push_notFound_logged_and_returned_w :
    (pushActivity ⟨.error .notFound, none⟩ ⟨2, 7⟩ 5 none).2.error
        = some Err.notFound ∧
    ((pushActivity ⟨.error .notFound, none⟩ ⟨2, 7⟩ 5 none).2.loggedNotFound = true ↔
      Err.notFound = Err.notFound) ∧
    (pushWorkflowTask ⟨.error .notFound, none⟩ ⟨2, 7⟩ 5 none).2.error
        = some Err.notFound ∧
    ((pushWorkflowTask ⟨.error .notFound, none⟩ ⟨2, 7⟩ 5 none).2.loggedNotFound = true ↔
      Err.notFound = Err.notFound) :=
  push_notFound_logged_and_returned ⟨.error .notFound, none⟩ ⟨2, 7⟩ ⟨2, 7⟩ 5 5
    none Err.notFound rfl

/-- C4: on a successful dispatch, a directive with no dynamic
assignment-rule requirement yields no mutable-state update at all and a
nil error; a directive requiring dynamic assignment yields exactly one
mutable-state update recording the worker-assigned build id returned by
the dispatch call, for both the activity and the workflow dispatcher. -/
theorem push_build_id_propagation (env : MatchingEnv)
    (atask : ActivityTaskInfo) (wtask : WorkflowTaskInfo) (ato wto : Int)
    (directive : Option TaskVersionDirective) (resp : AddTaskResponse)
    (hok : env.addTaskResult = .ok resp) :
    (getUseAssignmentRules directive = none →
      (pushActivity env atask ato directive).2.msUpdates = [] ∧
      (pushActivity env atask ato directive).2.error = none ∧
      (pushWorkflowTask env wtask wto directive).2.msUpdates = [] ∧
      (pushWorkflowTask env wtask wto directive).2.error = none) ∧
    (getUseAssignmentRules directive ≠ none →
      (pushActivity env atask ato directive).2.msUpdates
          = [resp.assignedBuildId] ∧
      (pushWorkflowTask env wtask wto directive).2.msUpdates
          = [resp.assignedBuildId]) := by
  cases hd : getUseAssignmentRules directive <;>
    simp [pushActivity, pushWorkflowTask, hok, hd,
      updateIndependentActivityBuildId, initializeWorkflowAssignedBuildId]

/-- Witness for C4 at concrete inputs: with no dynamic-assignment
directive no update is issued, and with one the returned build id is
recorded exactly once. -/
theorem push_build_id_propagation_w :
    ((getUseAssignmentRules (some ⟨none⟩) = none →
      (pushActivity ⟨.ok ⟨"b1"⟩, none⟩ ⟨1, 42⟩ 10 (some ⟨none⟩)).2.msUpdates = [] ∧
      (pushActivity ⟨.ok ⟨"b1"⟩, none⟩ ⟨1, 42⟩ 10 (some ⟨none⟩)).2.error = none ∧
      (pushWorkflowTask ⟨.ok ⟨"b1"⟩, none⟩ ⟨1, 42⟩ 10 (some ⟨none⟩)).2.msUpdates = [] ∧
      (pushWorkflowTask ⟨.ok ⟨"b1"⟩, none⟩ ⟨1, 42⟩ 10 (some ⟨none⟩)).2.error = none) ∧
    (getUseAssignmentRules (some ⟨none⟩) ≠ none →
      (pushActivity ⟨.ok ⟨"b1"⟩, none⟩ ⟨1, 42⟩ 10 (some ⟨none⟩)).2.msUpdates = ["b1"] ∧
      (pushWorkflowTask ⟨.ok ⟨"b1"⟩, none⟩ ⟨1, 42⟩ 10 (some ⟨none⟩)).2.msUpdates = ["b1"])) ∧
    ((getUseAssignmentRules (some ⟨some ()⟩) = none →
      (pushActivity ⟨.ok ⟨"b1"⟩, none⟩ ⟨1, 42⟩ 10 (some ⟨some ()⟩)).2.msUpdates = [] ∧
      (pushActivity ⟨.ok ⟨"b1"⟩, none⟩ ⟨1, 42⟩ 10 (some ⟨some ()⟩)).2.error = none ∧
      (pushWorkflowTask ⟨.ok ⟨"b1"⟩, none⟩ ⟨1, 42⟩ 10 (some ⟨some ()⟩)).2.msUpdates = [] ∧
      (pushWorkflowTask ⟨.ok ⟨"b1"⟩, none⟩ ⟨1, 42⟩ 10 (some ⟨some ()⟩)).2.error = none) ∧
    (getUseAssignmentRules (some ⟨some ()⟩) ≠ none →
      (pushActivity ⟨.ok ⟨"b1"⟩, none⟩ ⟨1, 42⟩ 10 (some ⟨some ()⟩)).2.msUpdates = ["b1"] ∧
      (pushWorkflowTask ⟨.ok ⟨"b1"⟩, none⟩ ⟨1, 42⟩ 10 (some ⟨some ()⟩)).2.msUpdates = ["b1"])) :=
  ⟨push_build_id_propagation ⟨.ok ⟨"b1"⟩, none⟩ ⟨1, 42⟩ ⟨1, 42⟩ 10 10
      (some ⟨none⟩) ⟨"b1"⟩ rfl,
    push_build_id_propagation ⟨.ok ⟨"b1"⟩, none⟩ ⟨1, 42⟩ ⟨1, 42⟩ 10 10
      (some ⟨some ()⟩) ⟨"b1"⟩ rfl⟩

/-! ## Deletion coordinator theorems -/

/-- With a non-zero recorded close-transfer-task id whose id is at or
above the ack level and not among the acked exceptions, the close task
counts as pending. -/
theorem isCloseExecutionTaskPending_of_not_acked (ms : MutableState)
    (qs : QueueState) (hT : ms.closeTransferTaskId ≠ 0)
    (hack : qs.ackLevel ≤ ms.closeTransferTaskId)
    (hexc : ms.closeTransferTaskId ∉ qs.ackedExceptions) :
    isCloseExecutionTaskPending ms (some qs) = true := by
  have hlt : ¬ ms.closeTransferTaskId < qs.ackLevel := not_lt.mpr hack
  simp [isCloseExecutionTaskPending, IsTaskAcked, hT, hlt, hexc]

/-- C1: with the pending-close guard enabled, a loaded mutable state
recording a non-zero close-transfer-task id, and a transfer-category
queue state that does not show that id as acked (ack level at or below it
and the id not among the acked exceptions), `deleteExecution` returns
`ErrDependencyTaskNotCompleted` and never invokes the deletion
primitive. -/
theorem deleteExecution_pending_close_blocks_deletion (env : DeleteEnv)
    (taskVersion : Option Int) (ms : MutableState) (qs : QueueState)
    (hacq : env.acquireLock = .ok ())
    (hms : env.loadMutableState = .ok ms)
    (hT : ms.closeTransferTaskId ≠ 0)
    (hqs : env.queueState = some qs)
    (hack : qs.ackLevel ≤ ms.closeTransferTaskId)
    (hexc : ms.closeTransferTaskId ∉ qs.ackedExceptions) :
    (deleteExecution env taskVersion true).1
        = some Err.dependencyTaskNotCompleted ∧
    (deleteExecution env taskVersion true).2.deleteCalls = 0 := by
  have hpend := isCloseExecutionTaskPending_of_not_acked ms qs hT hack hexc
  simp [deleteExecution, deleteExecutionBody, hacq, hms, hqs, hpend]

/-- Witness for C1 at a concrete input: close task id 100, ack level 50,
no exceptions. -/
theorem deleteExecution_pending_close_blocks_deletion_w :
    (deleteExecution ⟨.ok (), .ok ⟨100, .ok 0⟩, some ⟨50, []⟩, none⟩ none true).1
        = some Err.dependencyTaskNotCompleted ∧
    (deleteExecution ⟨.ok (), .ok ⟨100, .ok 0⟩, some ⟨50, []⟩, none⟩
        none true).2.deleteCalls = 0 :=
  deleteExecution_pending_close_blocks_deletion
    ⟨.ok (), .ok ⟨100, .ok 0⟩, some ⟨50, []⟩, none⟩ none ⟨100, .ok 0⟩ ⟨50, []⟩
    rfl rfl (by decide) rfl (by decide) (by decide)

/-- C9: when the shard reports no queue state for the transfer category,
the guard conservatively treats the close task as pending: with the guard
enabled and a non-zero close-transfer-task id, `deleteExecution` fails
with `ErrDependencyTaskNotCompleted` and never invokes the deletion
primitive. -/
theorem deleteExecution_missing_queue_state_blocks_deletion (env : DeleteEnv)
    (taskVersion : Option Int) (ms : MutableState)
    (hacq : env.acquireLock = .ok ())
    (hms : env.loadMutableState = .ok ms)
    (hT : ms.closeTransferTaskId ≠ 0)
    (hqs : env.queueState = none) :
    (deleteExecution env taskVersion true).1
        = some Err.dependencyTaskNotCompleted ∧
    (deleteExecution env taskVersion true).2.deleteCalls = 0 := by
  have hpend : isCloseExecutionTaskPending ms none = true := by
    simp [isCloseExecutionTaskPending, hT]
  simp [deleteExecution, deleteExecutionBody, hacq, hms, hqs, hpend]

/-- Witness for C9 at a concrete input: queue state not found, close task
id 100. -/
theorem deleteExecution_missing_queue_state_blocks_deletion_w :
    (deleteExecution ⟨.ok (), .ok ⟨100, .ok 0⟩, none, none⟩ none true).1
        = some Err.dependencyTaskNotCompleted ∧
    (deleteExecution ⟨.ok (), .ok ⟨100, .ok 0⟩, none, none⟩
        none true).2.deleteCalls = 0 :=
  deleteExecution_missing_queue_state_blocks_deletion
    ⟨.ok (), .ok ⟨100, .ok 0⟩, none, none⟩ none ⟨100, .ok 0⟩ rfl rfl
    (by decide) rfl

/-- C5: with the legacy sentinel `CloseTransferTaskId = 0`, the
pending-close guard is bypassed: `isCloseExecutionTaskPending` is false
for every queue state, and (for a task with no version to check)
`deleteExecution` proceeds to the deletion primitive regardless of the
guard flag and queue state. -/
theorem deleteExecution_legacy_close_task_bypasses_guard (env : DeleteEnv)
    (ms : MutableState) (flag : Bool) (qstate : Option QueueState)
    (hacq : env.acquireLock = .ok ())
    (hms : env.loadMutableState = .ok ms)
    (h0 : ms.closeTransferTaskId = 0) :
    isCloseExecutionTaskPending ms qstate = false ∧
    (deleteExecution env none flag).1 = env.deletePrimitive ∧
    (deleteExecution env none flag).2.deleteCalls = 1 := by
  have hpend : ∀ q, isCloseExecutionTaskPending ms q = false := by
    intro q; simp [isCloseExecutionTaskPending, h0]
  refine ⟨hpend qstate, ?_, ?_⟩ <;>
    simp [deleteExecution, deleteExecutionBody, hacq, hms, hpend]

/-- Witness for C5 at a concrete input: close task id 0, guard enabled,
ack level 50. -/
theorem deleteExecution_legacy_close_task_bypasses_guard_w :
    isCloseExecutionTaskPending ⟨0, .ok 0⟩ (some ⟨50, []⟩) = false ∧
    (deleteExecution ⟨.ok (), .ok ⟨0, .ok 0⟩, some ⟨50, []⟩, none⟩ none true).1
        = DeleteEnv.deletePrimitive ⟨.ok (), .ok ⟨0, .ok 0⟩, some ⟨50, []⟩, none⟩ ∧
    (deleteExecution ⟨.ok (), .ok ⟨0, .ok 0⟩, some ⟨50, []⟩, none⟩
        none true).2.deleteCalls = 1 :=
  deleteExecution_legacy_close_task_bypasses_guard
    ⟨.ok (), .ok ⟨0, .ok 0⟩, some ⟨50, []⟩, none⟩ ⟨0, .ok 0⟩ true
    (some ⟨50, []⟩) rfl rfl rfl

/-- C6: whenever the workflow lock is acquired, the release callback is
invoked exactly once — on every exit path of `deleteExecution`, for every
environment — and it is passed exactly the error value that
`deleteExecution` returns. -/
theorem deleteExecution_release_exactly_once (env : DeleteEnv)
    (taskVersion : Option Int) (flag : Bool)
    (hacq : env.acquireLock = .ok ()) :
    (deleteExecution env taskVersion flag).2.releases
        = [(deleteExecution env taskVersion flag).1] := by
  simp [deleteExecution, hacq]

/-- Witness for C6 at a concrete input: a run aborted by the
pending-close guard releases the lock once, reporting that error. -/
theorem deleteExecution_release_exactly_once_w :
    (deleteExecution ⟨.ok (), .ok ⟨100, .ok 0⟩, none, none⟩ none true).2.releases
        = [(deleteExecution ⟨.ok (), .ok ⟨100, .ok 0⟩, none, none⟩ none true).1] :=
  deleteExecution_release_exactly_once
    ⟨.ok (), .ok ⟨100, .ok 0⟩, none, none⟩ none true rfl

/-- C3: with the guard not firing, a task with no version (no `HasVersion`
implementation) or the sentinel `EmptyVersion` skips the version check and
reaches the deletion primitive regardless of the close version; a task
with a real version `v` reaches the deletion primitive iff `v` equals the
close version `c`, and on mismatch `deleteExecution` returns the
version-check error without invoking the deletion primitive. -/
theorem deleteExecution_version_gate (env : DeleteEnv) (ms : MutableState)
    (flag : Bool) (v c : Int)
    (hacq : env.acquireLock = .ok ())
    (hms : env.loadMutableState = .ok ms)
    (hguard : (flag && isCloseExecutionTaskPending ms env.queueState) = false)
    (hc : ms.getCloseVersion = .ok c) :
    ((deleteExecution env none flag).1 = env.deletePrimitive ∧
      (deleteExecution env none flag).2.deleteCalls = 1) ∧
    ((deleteExecution env (some EmptyVersion) flag).1 = env.deletePrimitive ∧
      (deleteExecution env (some EmptyVersion) flag).2.deleteCalls = 1) ∧
    (v ≠ EmptyVersion →
      ((deleteExecution env (some v) flag).2.deleteCalls = 1 ↔ v = c) ∧
      (v = c →
        (deleteExecution env (some v) flag).1 = env.deletePrimitive) ∧
      (v ≠ c →
        (deleteExecution env (some v) flag).1 = some Err.versionMismatch ∧
        (deleteExecution env (some v) flag).2.deleteCalls = 0)) := by
  refine ⟨?_, ?_, ?_⟩
  · simp [deleteExecution, deleteExecutionBody, hacq, hms, hguard]
  · simp [deleteExecution, deleteExecutionBody, hacq, hms, hguard]
  · intro hv
    by_cases hvc : v = c <;>
      simp [deleteExecution, deleteExecutionBody, CheckTaskVersion,
        hacq, hms, hguard, hc, hv, hvc]

/-- Witness for C3 at concrete inputs: close version 5, task version 5
(match) against task version 7 (mismatch checked via the `v = 7`
instance below only through the mismatch branch). -/
theorem deleteExecution_version_gate_w :
    ((deleteExecution ⟨.ok (), .ok ⟨0, .ok 5⟩, none, none⟩ none false).1
        = DeleteEnv.deletePrimitive ⟨.ok (), .ok ⟨0, .ok 5⟩, none, none⟩ ∧
      (deleteExecution ⟨.ok (), .ok ⟨0, .ok 5⟩, none, none⟩
        none false).2.deleteCalls = 1) ∧
    ((deleteExecution ⟨.ok (), .ok ⟨0, .ok 5⟩, none, none⟩ (some EmptyVersion) false).1
        = DeleteEnv.deletePrimitive ⟨.ok (), .ok ⟨0, .ok 5⟩, none, none⟩ ∧
      (deleteExecution ⟨.ok (), .ok ⟨0, .ok 5⟩, none, none⟩
        (some EmptyVersion) false).2.deleteCalls = 1) ∧
    ((7 : Int) ≠ EmptyVersion →
      ((deleteExecution ⟨.ok (), .ok ⟨0, .ok 5⟩, none, none⟩
          (some 7) false).2.deleteCalls = 1 ↔ (7 : Int) = 5) ∧
      ((7 : Int) = 5 →
        (deleteExecution ⟨.ok (), .ok ⟨0, .ok 5⟩, none, none⟩ (some 7) false).1
          = DeleteEnv.deletePrimitive ⟨.ok (), .ok ⟨0, .ok 5⟩, none, none⟩) ∧
      ((7 : Int) ≠ 5 →
        (deleteExecution ⟨.ok (), .ok ⟨0, .ok 5⟩, none, none⟩ (some 7) false).1
          = some Err.versionMismatch ∧
        (deleteExecution ⟨.ok (), .ok ⟨0, .ok 5⟩, none, none⟩
          (some 7) false).2.deleteCalls = 0)) :=
  deleteExecution_version_gate ⟨.ok (), .ok ⟨0, .ok 5⟩, none, none⟩
    ⟨0, .ok 5⟩ false 7 5 rfl rfl (by decide) rfl

/-! ## Version-sync fan-out theorems -/

/-- A left fold by a function whose applications commute is invariant
under permutation of the folded list. -/
theorem foldl_eq_of_perm {α β : Type} {f : β → α → β}
    (hc : ∀ m a b, f (f m a) b = f (f m b) a)
    {l1 l2 : List α} (h : l1.Perm l2) : ∀ m, l1.foldl f m = l2.foldl f m := by
  induction h with
  | nil => intro m; rfl
  | cons x _ ih => intro m; simpa using ih (f m x)
  | swap x y l => intro m; simp [List.foldl]; rw [hc]
  | trans _ _ ih1 ih2 => intro m; rw [ih1, ih2]

/-- Recording two max-version updates into the map commutes. -/
theorem recordMaxVersion_comm (m : String → Int) (n1 n2 : String)
    (v1 v2 : Int) :
    recordMaxVersion (recordMaxVersion m n1 v1) n2 v2
      = recordMaxVersion (recordMaxVersion m n2 v2) n1 v1 := by
  funext k
  unfold recordMaxVersion
  by_cases h12 : n1 = n2
  · subst h12
    by_cases hk : k = n1 <;> simp [hk, sup_right_comm]
  · by_cases hk1 : k = n1 <;> by_cases hk2 : k = n2 <;> simp_all

/-- Recording two sync results into the max-version map commutes. -/
theorem applySyncArrival_comm (m : String → Int) (r1 r2 : SyncArrival) :
    applySyncArrival (applySyncArrival m r1) r2
      = applySyncArrival (applySyncArrival m r2) r1 := by
  rcases r1 with ⟨n1, e1 | v1⟩ <;> rcases r2 with ⟨n2, e2 | v2⟩
  · rfl
  · rfl
  · rfl
  · exact recordMaxVersion_comm m n1 n2 v1 v2

/-- The error fold of the sync fan-out is nil iff the accumulator is nil
and every folded call succeeded. -/
theorem syncFanoutError_foldl_eq_none (l : List SyncArrival) (acc : Option Err) :
    l.foldl (fun a r => cmpOr a (syncArrivalErr r)) acc = none ↔
      acc = none ∧ ∀ r ∈ l, syncCallOk r = true := by
  induction l generalizing acc with
  | nil => simp
  | cons r l ih =>
    have hstep : cmpOr acc (syncArrivalErr r) = none ↔
        acc = none ∧ syncCallOk r = true := by
      rcases acc with _ | e <;> rcases r with ⟨n, e' | v⟩ <;>
        simp [cmpOr, syncArrivalErr, syncCallOk]
    simp only [List.foldl_cons, ih, hstep, List.mem_cons]
    constructor
    · rintro ⟨⟨ha, hr⟩, hl⟩
      exact ⟨ha, by rintro x (rfl | hx); exact hr; exact hl x hx⟩
    · rintro ⟨ha, hall⟩
      exact ⟨⟨ha, hall r (Or.inl rfl)⟩, fun x hx => hall x (Or.inr hx)⟩

/-- Reading one key of the accumulated max-version map: it is the max
fold of the versions reported for that key over the initial map's value
at that key. -/
theorem syncFanoutVersions_foldl_get (l : List SyncArrival)
    (m : String → Int) (k : String) :
    l.foldl applySyncArrival m k = (reportedVersions k l).foldl max (m k) := by
  induction l generalizing m with
  | nil => rfl
  | cons r l ih =>
    rcases r with ⟨n, e | v⟩
    · simp [applySyncArrival, reportedVersions, ih]
    · by_cases hn : n = k
      · subst hn
        simp [applySyncArrival, reportedVersions, ih, recordMaxVersion]
      · have hkn : ¬ k = n := fun h => hn h.symm
        simp [applySyncArrival, reportedVersions, hn, hkn, recordMaxVersion, ih]

/-- The initial accumulator bounds a max fold from below. -/
theorem init_le_foldl_max (vs : List Int) (a : Int) : a ≤ vs.foldl max a := by
  induction vs generalizing a with
  | nil => exact le_refl a
  | cons v vs ih => exact le_trans (le_max_left a v) (ih (max a v))

/-- Every member of the list is bounded by its max fold. -/
theorem mem_le_foldl_max (vs : List Int) (a : Int) :
    ∀ v ∈ vs, v ≤ vs.foldl max a := by
  induction vs generalizing a with
  | nil => simp
  | cons w vs ih =>
    intro v hv
    rcases List.mem_cons.mp hv with rfl | hv'
    · exact le_trans (le_max_right a v) (init_le_foldl_max vs (max a v))
    · exact ih (max a w) v hv'

/-- A max fold is either a member of the list or the initial value. -/
theorem foldl_max_mem_or_init (vs : List Int) (a : Int) :
    vs.foldl max a ∈ vs ∨ vs.foldl max a = a := by
  induction vs generalizing a with
  | nil => exact Or.inr rfl
  | cons v vs ih =>
    rcases ih (max a v) with h | h
    · exact Or.inl (List.mem_cons_of_mem _ h)
    · rw [List.foldl_cons, h]
      rcases le_total a v with hav | hva
      · exact Or.inl (by simp [max_eq_right hav])
      · exact Or.inr (max_eq_left hva)

/-- C8: for every per-task-queue version-sync fan-out, over every
possible goroutine completion order (`arrivals` ranges over all
permutations of the per-queue results), the reduction is first-error-wins:
the activity returns a non-nil error iff at least one per-task-queue sync
call returned an error; and when all calls succeed (versions reported by
matching being non-negative counters), the returned map sends each
task-queue name to the maximum version reported for that queue. -/
theorem syncFanout_first_error_wins_max_versions
    (results arrivals : List SyncArrival) (name : String)
    (hperm : arrivals.Perm results) :
    ((∃ e, syncDeploymentUserDataFanout arrivals = .error e) ↔
      ∃ r ∈ results, syncCallOk r = false) ∧
    (((∀ r ∈ results, syncCallOk r = true) ∧
        (∀ v ∈ reportedVersions name results, 0 ≤ v)) →
      ∃ m, syncDeploymentUserDataFanout arrivals = .ok m ∧
        (∀ v ∈ reportedVersions name results, v ≤ m name) ∧
        (reportedVersions name results ≠ [] →
          m name ∈ reportedVersions name results)) := by
  have herr : syncFanoutError arrivals = none ↔
      ∀ r ∈ arrivals, syncCallOk r = true := by
    simpa using syncFanoutError_foldl_eq_none arrivals none
  have hmem : (∀ r ∈ arrivals, syncCallOk r = true) ↔
      ∀ r ∈ results, syncCallOk r = true := by
    constructor <;> intro h r hr
    · exact h r (hperm.mem_iff.mpr hr)
    · exact h r (hperm.mem_iff.mp hr)
  constructor
  · cases h : syncFanoutError arrivals with
    | none =>
      simp only [syncDeploymentUserDataFanout, h]
      constructor
      · rintro ⟨e, he⟩
        exact Except.noConfusion he
      · rintro ⟨r, hr, hfalse⟩
        have htrue := (hmem.mp (herr.mp h)) r hr
        rw [hfalse] at htrue
        exact Bool.noConfusion htrue
    | some e =>
      simp only [syncDeploymentUserDataFanout, h]
      refine ⟨fun _ => ?_, fun _ => ⟨e, rfl⟩⟩
      by_contra hc
      push_neg at hc
      have hall : ∀ r ∈ arrivals, syncCallOk r = true := by
        intro r hr
        have := hc r (hperm.mem_iff.mp hr)
        simpa using this
      rw [herr.mpr hall] at h
      exact Option.noConfusion h
  · rintro ⟨hall, hnn⟩
    have h0 : syncFanoutError arrivals = none := herr.mpr (hmem.mpr hall)
    have hp : syncFanoutVersions arrivals = syncFanoutVersions results :=
      foldl_eq_of_perm applySyncArrival_comm hperm (fun _ => 0)
    have hv : syncFanoutVersions arrivals name
        = (reportedVersions name results).foldl max 0 :=
      (congrFun hp name).trans
        (syncFanoutVersions_foldl_get results (fun _ => 0) name)
    refine ⟨syncFanoutVersions arrivals, ?_, ?_, ?_⟩
    · simp [syncDeploymentUserDataFanout, h0]
    · intro v hvmem
      rw [hv]
      exact mem_le_foldl_max _ 0 v hvmem
    · intro hne
      rw [hv]
      rcases foldl_max_mem_or_init (reportedVersions name results) 0 with hm | hm
      · exact hm
      · cases hrep : reportedVersions name results with
        | nil => exact absurd hrep hne
        | cons v0 vs =>
          have hv0mem : v0 ∈ reportedVersions name results := by
            rw [hrep]; exact List.mem_cons_self v0 vs
          have hle : v0 ≤ 0 := hm ▸ mem_le_foldl_max _ 0 v0 hv0mem
          have hv0 : v0 = 0 := le_antisymm hle (hnn v0 hv0mem)
          have hres : List.foldl max 0 (reportedVersions name results) = v0 :=
            hm.trans hv0.symm
          rw [← hrep, hres]
          exact hv0mem

/-- Witness for C8 at concrete inputs: results for queues q1 (versions 3
and 7) and q2 (version 5), arriving in reversed order. -/
theorem syncFanout_first_error_wins_max_versions_w :
    ((∃ e, syncDeploymentUserDataFanout
        [("q1", .ok 7), ("q2", .ok 5), ("q1", .ok 3)] = .error e) ↔
      ∃ r ∈ [(("q1" : String), (Except.ok 3 : Except Err Int)),
        ("q2", .ok 5), ("q1", .ok 7)], syncCallOk r = false) ∧
    (((∀ r ∈ [(("q1" : String), (Except.ok 3 : Except Err Int)),
          ("q2", .ok 5), ("q1", .ok 7)], syncCallOk r = true) ∧
        (∀ v ∈ reportedVersions "q1"
          [("q1", .ok 3), ("q2", .ok 5), ("q1", .ok 7)], 0 ≤ v)) →
      ∃ m, syncDeploymentUserDataFanout
          [("q1", .ok 7), ("q2", .ok 5), ("q1", .ok 3)] = .ok m ∧
        (∀ v ∈ reportedVersions "q1"
          [("q1", .ok 3), ("q2", .ok 5), ("q1", .ok 7)], v ≤ m "q1") ∧
        (reportedVersions "q1"
            [("q1", .ok 3), ("q2", .ok 5), ("q1", .ok 7)] ≠ [] →
          m "q1" ∈ reportedVersions "q1"
            [("q1", .ok 3), ("q2", .ok 5), ("q1", .ok 7)])) :=
  syncFanout_first_error_wins_max_versions
    [("q1", .ok 3), ("q2", .ok 5), ("q1", .ok 7)]
    [("q1", .ok 7), ("q2", .ok 5), ("q1", .ok 3)] "q1" (by decide)

end Temporal
